import Mathlib

/-!
# Verification of the SteamDT-Trae background batch-ingestion jobs

Shallow embedding of `job_manager.py` (classes `PriceBatchJob` and
`DualApiSequentialJob`, helpers `canonical_platform_name`, `_to_float`,
`_to_int`) together with proofs about the embedded definitions.

Modelling conventions:
* Python strings are modelled as lists of Unicode code points (`List Nat`);
  `sc` converts a Lean string literal to this representation.
* `str.strip()` / `str.upper()` are modelled over code points (`pyStrip`,
  `pyUpper`); upper-casing is modelled on the ASCII range `a`-`z`, which
  covers every string the canonicalization table distinguishes.
* Python values arriving from the JSON API are modelled by the inductive
  type `PyVal`; Python `float` is modelled by `Rat` (the code only ever
  converts and compares, never does float arithmetic).
* Exceptions are modelled by `Except PyErr` / an `Option PyErr` field;
  places where the Python code can raise (attribute access on a non-dict,
  iterating a non-iterable, a failing DB commit) are the places where the
  embedding produces an error value.
* The SQLAlchemy queries are modelled by function parameters: the catalog
  range query (`Item` by id range), the item/platform resolution lookups
  (both backed by UNIQUE constraints in `db.py`, hence total functions),
  and a boolean `writeOk` for whether the batch commit succeeds.
-/

namespace SteamDT

/-- Code points of a string literal. -/
def sc (s : String) : List Nat := s.toList.map Char.toNat

/-! ## Python string primitives (`str.strip`, `str.upper`) -/

/-- Python whitespace recognised by `str.strip()` (ASCII part). -/
def isSpaceCode (c : Nat) : Bool :=
  decide (c = 32 ∨ c = 9 ∨ c = 10 ∨ c = 13 ∨ c = 11 ∨ c = 12)

/-- `str.upper()` on one code point (ASCII range). -/
def pyUpperCode (c : Nat) : Nat :=
  if 97 ≤ c ∧ c ≤ 122 then c - 32 else c

/-- `s.strip()`: drop whitespace from both ends. -/
def pyStrip (l : List Nat) : List Nat :=
  List.rdropWhile isSpaceCode (List.dropWhile isSpaceCode l)

/-- `s.upper()`: upper-case every character. -/
def pyUpper (l : List Nat) : List Nat :=
  l.map pyUpperCode

/-- Embedding of `canonical_platform_name` (job_manager.py, lines 10-16):
`p = (name or "").strip().upper()`, then the alias table. The `name or ""`
guard only matters for non-string arguments and is handled at the call
sites that can pass one (`canonicalOfVal` below). -/
def canonical_platform_name (name : List Nat) : List Nat :=
  let p := pyUpper (pyStrip name)
  if p = sc "C5" then sc "C5GAME"
  else if p = sc "HALO" then sc "HALOSKINS"
  else p

/-! ## Python values from the JSON API -/

/-- A Python value as it can appear in a decoded JSON API response
(plus `bool`, which Python distinguishes from `int` only barely; we keep
it separate for `pyTruthy`/coercion fidelity). `float` is modelled by
`Rat`: the job only converts and stores numbers, never computes. -/
inductive PyVal where
  | none : PyVal
  | bool : Bool → PyVal
  | int : Int → PyVal
  | float : Rat → PyVal
  | str : List Nat → PyVal
  | list : List PyVal → PyVal
  | dict : List (List Nat × PyVal) → PyVal

/-- The Python exceptions the embedded code can raise. -/
inductive PyErr where
  /-- e.g. `.get`/`.strip` on an object without that attribute -/
  | attributeError : PyErr
  /-- e.g. iterating a non-iterable -/
  | typeError : PyErr
  /-- a database error raised from `session.add`/`session.commit` -/
  | dbError : PyErr
deriving DecidableEq, Repr

/-- Python truthiness (`bool(v)`). -/
def pyTruthy : PyVal → Bool
  | .none => false
  | .bool b => b
  | .int n => n != 0
  | .float q => q != 0
  | .str s => !s.isEmpty
  | .list l => !l.isEmpty
  | .dict d => !d.isEmpty

/-- Python `a or b`: `a` if truthy, else `b`. -/
def pyOr (a b : PyVal) : PyVal := if pyTruthy a then a else b

/-- `d.get(k)`: `None` when the key is missing. -/
def dictGet (d : List (List Nat × PyVal)) (k : List Nat) : PyVal :=
  (List.lookup k d).getD PyVal.none

/-- `v.get(k)` on an arbitrary value: `AttributeError` unless `v` is a dict. -/
def pyGetAttrGet (v : PyVal) (k : List Nat) : Except PyErr PyVal :=
  match v with
  | .dict d => .ok (dictGet d k)
  | _ => .error .attributeError

/-- `for x in v`: Python iteration. Lists yield elements, strings yield
1-character strings, dicts yield their keys; everything else raises
`TypeError`. -/
def pyIter (v : PyVal) : Except PyErr (List PyVal) :=
  match v with
  | .list l => .ok l
  | .str s => .ok (s.map fun c => PyVal.str [c])
  | .dict d => .ok (d.map fun kv => PyVal.str kv.1)
  | _ => .error .typeError

def isDigitCode (c : Nat) : Bool := decide (48 ≤ c ∧ c ≤ 57)

def digitsToNat (l : List Nat) : Nat := l.foldl (fun a c => a * 10 + (c - 48)) 0

/-- `float(s)` on a stripped string: optional sign, then decimal digits with
an optional fractional part. (Exponent forms, `inf`/`nan` and underscore
separators are not modelled; every claim under verification only depends on
coercion failure degrading to `None`, which this parser shares with
`float`.) -/
def parseUnsignedFloat (t : List Nat) : Option Rat :=
  let ip := t.takeWhile isDigitCode
  let rest := t.drop ip.length
  match rest with
  | [] => if ip.isEmpty then Option.none else some ((digitsToNat ip : Nat) : Rat)
  | 46 :: frac =>
    if frac.all isDigitCode ∧ (ip ≠ [] ∨ frac ≠ []) then
      some (((digitsToNat ip : Nat) : Rat) + ((digitsToNat frac : Nat) : Rat) / (10 : Rat) ^ frac.length)
    else Option.none
  | _ => Option.none

def parseSignedFloat (t : List Nat) : Option Rat :=
  match t with
  | 43 :: r => parseUnsignedFloat r
  | 45 :: r => (parseUnsignedFloat r).map Neg.neg
  | r => parseUnsignedFloat r

def parseUnsignedInt (t : List Nat) : Option Int :=
  if !t.isEmpty ∧ t.all isDigitCode then some ((digitsToNat t : Nat) : Int) else Option.none

def parseSignedInt (t : List Nat) : Option Int :=
  match t with
  | 43 :: r => parseUnsignedInt r
  | 45 :: r => (parseUnsignedInt r).map Neg.neg
  | r => parseUnsignedInt r

/-- `int()` truncates floats toward zero. -/
def ratTrunc (q : Rat) : Int := q.num / (q.den : Int)

/-- Embedding of `_to_float` (job_manager.py, lines 19-23): `float(x)` with
every exception mapped to `None`. `float(None)`, `float([])` etc. raise
`TypeError`, which the `except` swallows. -/
def pyFloat : PyVal → Option Rat
  | .int n => some (n : Rat)
  | .float q => some q
  | .bool b => some (if b then 1 else 0)
  | .str s => parseSignedFloat (pyStrip s)
  | _ => Option.none

/-- Embedding of `_to_int` (job_manager.py, lines 26-30): `int(x)` with
every exception mapped to `None`. `int("5.5")` raises `ValueError`, hence
only pure integer literals parse. -/
def pyInt : PyVal → Option Int
  | .int n => some n
  | .float q => some (ratTrunc q)
  | .bool b => some (if b then 1 else 0)
  | .str s => parseSignedInt (pyStrip s)
  | _ => Option.none

/-! ## The response normalizer
(the body of the `for it in data_list` loop shared verbatim by
`PriceBatchJob._run_one_range`, lines 199-256, and
`DualApiSequentialJob._run_one_range`, lines 469-525) -/

/-- One normalized price record (the `Price(...)` row constructed per
platform entry). `update_time_text` is omitted: it is derived from
`update_time` by the fixed, exception-guarded formatting function
`_format_beijing_text` and carries no independent information.
`platform_item_id` stores the selected value itself; the source applies
`str(...)` to it, which is total on every Python value, so presence and
provenance are preserved exactly. -/
structure PriceRow where
  market_hash_name : List Nat
  platform : List Nat
  platform_item_id : Option PyVal
  item_id : Option Int
  platform_id : Option Int
  sell_price : Option Rat
  bidding_price : Option Rat
  sell_count : Option Int
  bidding_count : Option Int
  update_time : Option Int

/-- `it.get("marketHashName") or it.get("market_hash_name") or ""` -/
def mhnChain (d : List (List Nat × PyVal)) : PyVal :=
  pyOr (dictGet d (sc "marketHashName")) (pyOr (dictGet d (sc "market_hash_name")) (.str []))

/-- `it.get("platforms") or it.get("platformList") or it.get("dataList") or []` -/
def platsChain (d : List (List Nat × PyVal)) : PyVal :=
  pyOr (dictGet d (sc "platforms"))
    (pyOr (dictGet d (sc "platformList")) (pyOr (dictGet d (sc "dataList")) (.list [])))

/-- `p.get("platform") or p.get("name") or p.get("plat") or ""` -/
def platNameChain (pd : List (List Nat × PyVal)) : PyVal :=
  pyOr (dictGet pd (sc "platform"))
    (pyOr (dictGet pd (sc "name")) (pyOr (dictGet pd (sc "plat")) (.str [])))

/-- `p.get("itemId") or p.get("platformItemId") or p.get("platform_item_id") or None` -/
def pidChain (pd : List (List Nat × PyVal)) : PyVal :=
  pyOr (dictGet pd (sc "itemId"))
    (pyOr (dictGet pd (sc "platformItemId")) (pyOr (dictGet pd (sc "platform_item_id")) .none))

/-- `p.get("sell_price") or p.get("sellPrice") or p.get("sell") or p.get("price")` -/
def sellChain (pd : List (List Nat × PyVal)) : PyVal :=
  pyOr (dictGet pd (sc "sell_price"))
    (pyOr (dictGet pd (sc "sellPrice")) (pyOr (dictGet pd (sc "sell")) (dictGet pd (sc "price"))))

/-- `p.get("bidding_price") or p.get("biddingPrice") or p.get("buy") or p.get("buy_price")` -/
def buyChain (pd : List (List Nat × PyVal)) : PyVal :=
  pyOr (dictGet pd (sc "bidding_price"))
    (pyOr (dictGet pd (sc "biddingPrice")) (pyOr (dictGet pd (sc "buy")) (dictGet pd (sc "buy_price"))))

/-- `p.get("sell_count") or p.get("sellCount")` -/
def sellCountChain (pd : List (List Nat × PyVal)) : PyVal :=
  pyOr (dictGet pd (sc "sell_count")) (dictGet pd (sc "sellCount"))

/-- `p.get("bidding_count") or p.get("biddingCount")` -/
def biddingCountChain (pd : List (List Nat × PyVal)) : PyVal :=
  pyOr (dictGet pd (sc "bidding_count")) (dictGet pd (sc "biddingCount"))

/-- `p.get("update_time") or p.get("updateTime")` -/
def utChain (pd : List (List Nat × PyVal)) : PyVal :=
  pyOr (dictGet pd (sc "update_time")) (dictGet pd (sc "updateTime"))

/-- Lines 228-232 / 498-501: `ut_int = _to_int(ut) if ut is not None else
None`, then `if ut_int is not None and ut_int < 1000000000000:
ut_int = ut_int * 1000`. This function takes the already-coerced value. -/
def msNormalize : Option Int → Option Int
  | Option.none => Option.none
  | some n => if n < 1000000000000 then some (n * 1000) else some n

/-- `canonical_platform_name(raw)` where `raw` is an arbitrary Python
value: `(name or "").strip()` raises `AttributeError` when `name` is
truthy but not a string; a falsy `name` is replaced by `""`. -/
def canonicalOfVal (v : PyVal) : Except PyErr (List Nat) :=
  if pyTruthy v then
    match v with
    | .str s => .ok (canonical_platform_name s)
    | _ => .error .attributeError
  else .ok (canonical_platform_name [])

/-- `v.strip()`: ok on strings, `AttributeError` otherwise. -/
def stripOfVal (v : PyVal) : Except PyErr (List Nat) :=
  match v with
  | .str s => .ok (pyStrip s)
  | _ => .error .attributeError

/-- The body of `for p in plats` (lines 220-256 / 490-525): build one
`Price` row from one platform entry. `PL` is the
`Platform.item_id == .. and Platform.name == ..` lookup (unique by
`uq_platform_item_name`, hence a total function). -/
def extractPlatform (PL : Int → List Nat → Option Int) (mhn : List Nat)
    (item_id_val : Option Int) (p : PyVal) : Except PyErr PriceRow :=
  match p with
  | .dict pd => do
    let plat_name ← canonicalOfVal (platNameChain pd)
    let pid := pidChain pd
    let plat_id := match item_id_val with
      | some iid => if iid ≠ 0 then PL iid plat_name else Option.none
      | Option.none => Option.none
    .ok {
      market_hash_name := mhn
      platform := plat_name
      platform_item_id := match pid with | .none => Option.none | v => some v
      item_id := item_id_val
      platform_id := plat_id
      sell_price := pyFloat (sellChain pd)
      bidding_price := pyFloat (buyChain pd)
      sell_count := pyInt (sellCountChain pd)
      bidding_count := pyInt (biddingCountChain pd)
      update_time := msNormalize (match utChain pd with | .none => Option.none | v => pyInt v) }
  | _ => .error .attributeError

/-- Lines 210-256 / 480-525 for one element `it` of the data list:
resolve the name, the platform container and the item id, and build the
rows for each platform entry (empty when the name is empty — `continue`).
`IL` is the `Item.market_hash_name == ..` lookup (UNIQUE column, hence a
total function returning the item id when present). -/
def normalizeEntry (IL : List Nat → Option Int) (PL : Int → List Nat → Option Int)
    (it : PyVal) : Except PyErr (List PriceRow) :=
  match it with
  | .dict d => do
    let mhn ← stripOfVal (mhnChain d)
    if mhn.isEmpty then .ok []
    else
      let plats ← match platsChain d with
        | .dict pd => .ok [PyVal.dict pd]
        | v => pyIter v
      let item_id_val := IL mhn
      plats.mapM (extractPlatform PL mhn item_id_val)
  | _ => .error .attributeError

/-- Lines 199-208 / 469-478: choose the data list out of the response. -/
def extractDataList (resp : PyVal) : List PyVal :=
  match resp with
  | .dict d =>
    match List.lookup (sc "data") d with
    | some (.list l) => l
    | _ =>
      match List.lookup (sc "items") d with
      | some (.list l) => l
      | _ =>
        match List.lookup (sc "results") d with
        | some (.list l) => l
        | _ => []
  | .list l => l
  | _ => []

/-- The full response-normalization step (everything between receiving
`resp` and the `sess2.commit()`): turn one API response into the list of
rows that the window would persist, or the exception it raises. -/
def normalizeResp (IL : List Nat → Option Int) (PL : Int → List Nat → Option Int)
    (resp : PyVal) : Except PyErr (List PriceRow) :=
  ((extractDataList resp).mapM (normalizeEntry IL PL)).map List.flatten

/-! ## The window scheduler state machines -/

/-- One catalog row as the range query returns it (`db.py`: `Item.id`
primary key, `Item.market_hash_name` NOT NULL — the job still guards
against empty names). -/
structure ItemRow where
  id : Int
  market_hash_name : List Nat
deriving DecidableEq, Repr

/-- `names = [it.market_hash_name for it in items if it.market_hash_name]` -/
def itemNames (items : List ItemRow) : List (List Nat) :=
  (items.filter fun it => !it.market_hash_name.isEmpty).map ItemRow.market_hash_name

/-- The scheduler state of `PriceBatchJob` (the fields mutated under
`self._lock`; the thread handle, the events and the wall-clock
`next_run_ts` are not part of the verified state). -/
structure JobState where
  running : Bool
  paused : Bool
  max_id : Int
  completed_count : Int
  current_start_id : Int
  batch_size : Int
  interval_sec : Int
  last_processed_range : Option (Int × Int)
deriving DecidableEq, Repr

/-- The scheduler state of `DualApiSequentialJob`: the single-variant
fields plus the alternating-credential pointer and the last error. -/
structure DualState where
  running : Bool
  paused : Bool
  max_id : Int
  completed_count : Int
  current_start_id : Int
  batch_size : Int
  interval_sec : Int
  last_processed_range : Option (Int × Int)
  next_client_id : Int
  last_error : Option PyErr
deriving DecidableEq, Repr

/-- Result of one `_run_one_range` call: the exception it raised (if
any), the scheduler state afterwards, and the rows the window committed
(empty whenever the transaction rolled back). -/
structure RunOutcome (σ : Type) where
  err : Option PyErr
  st : σ
  written : List PriceRow

/-- The cursor-advance block run under the lock (lines 187-190, 264-267):
record the window, set `completed_count = end_id`, move the cursor. -/
def advance1 (st : JobState) (s e : Int) : JobState :=
  { st with last_processed_range := some (s, e), completed_count := e, current_start_id := e + 1 }

/-- Embedding of `PriceBatchJob._run_one_range` (lines 164-267).
Environment parameters: `Q` is the `Item.id BETWEEN start AND end` query,
`A` is `client.get_price_batch`, `IL`/`PL` the row-resolution lookups,
`writeOk` whether the batch `add`/`commit` succeeds. On any exception the
transaction is rolled back (no rows) and the state is left untouched. -/
def runOneRange1 (Q : Int → Int → List ItemRow)
    (A : List (List Nat) → Except PyErr PyVal)
    (IL : List Nat → Option Int) (PL : Int → List Nat → Option Int)
    (writeOk : Bool) (st : JobState) : RunOutcome JobState :=
  let start_id := st.current_start_id
  let end_id := min st.max_id (start_id + st.batch_size - 1)
  if start_id > end_id ∨ start_id ≤ 0 then ⟨Option.none, st, []⟩
  else
    let items := Q start_id end_id
    if items.isEmpty then ⟨Option.none, st, []⟩
    else
      let names := itemNames items
      if names.isEmpty then ⟨Option.none, advance1 st start_id end_id, []⟩
      else
        match A names with
        | .error e => ⟨some e, st, []⟩
        | .ok resp =>
          match normalizeResp IL PL resp with
          | .error e => ⟨some e, st, []⟩
          | .ok rows =>
            if writeOk then ⟨Option.none, advance1 st start_id end_id, rows⟩
            else ⟨some .dbError, st, []⟩

/-- `stop()` as the loop's auto-stop invokes it (lines 110-128): running
and paused are cleared. -/
def stop1 (st : JobState) : JobState := { st with running := false, paused := false }

/-- One iteration of `PriceBatchJob._loop` (lines 131-162): while paused
nothing happens; otherwise one window runs with every exception swallowed,
then the job auto-stops when `completed_count >= max_id`. -/
def loopStep1 (Q : Int → Int → List ItemRow) (A : List (List Nat) → Except PyErr PyVal)
    (IL : List Nat → Option Int) (PL : Int → List Nat → Option Int)
    (writeOk : Bool) (st : JobState) : JobState :=
  if st.paused then st
  else
    let r := runOneRange1 Q A IL PL writeOk st
    if r.st.max_id ≤ r.st.completed_count then stop1 r.st else r.st

/-- The loop trajectory: `traj1 .. k` is the scheduler state after `k`
loop iterations. -/
def traj1 (Q : Int → Int → List ItemRow) (A : List (List Nat) → Except PyErr PyVal)
    (IL : List Nat → Option Int) (PL : Int → List Nat → Option Int)
    (writeOk : Bool) (st0 : JobState) : Nat → JobState
  | 0 => st0
  | k + 1 => loopStep1 Q A IL PL writeOk (traj1 Q A IL PL writeOk st0 k)

/-- `PriceBatchJob.pause` (lines 96-101). -/
def pause1 (st : JobState) : JobState :=
  if st.running && !st.paused then { st with paused := true } else st

/-- The dual variant's cursor-advance block (lines 446-449, 456-459,
534-537) — identical to `advance1`, without touching the pointer. -/
def advance2 (st : DualState) (s e : Int) : DualState :=
  { st with last_processed_range := some (s, e), completed_count := e, current_start_id := e + 1 }

/-- Embedding of `DualApiSequentialJob._run_one_range` (lines 426-538).
Differences against the single variant, exactly as in the source: the
credential for this window is read from `next_client_id` under the lock
before any I/O; an empty window advances the cursor (line 444-450); the
client is selected by `client_id`; and on full success the credential
pointer flips (line 538). -/
def runOneRange2 (Q : Int → Int → List ItemRow)
    (A1 A2 : List (List Nat) → Except PyErr PyVal)
    (IL : List Nat → Option Int) (PL : Int → List Nat → Option Int)
    (writeOk : Bool) (st : DualState) : RunOutcome DualState :=
  let start_id := st.current_start_id
  let end_id := min st.max_id (start_id + st.batch_size - 1)
  let client_id := st.next_client_id
  if start_id > end_id ∨ start_id ≤ 0 then ⟨Option.none, st, []⟩
  else
    let items := Q start_id end_id
    if items.isEmpty then ⟨Option.none, advance2 st start_id end_id, []⟩
    else
      let names := itemNames items
      if names.isEmpty then ⟨Option.none, advance2 st start_id end_id, []⟩
      else
        match (if client_id = 1 then A1 else A2) names with
        | .error e => ⟨some e, st, []⟩
        | .ok resp =>
          match normalizeResp IL PL resp with
          | .error e => ⟨some e, st, []⟩
          | .ok rows =>
            if writeOk then
              ⟨Option.none,
                { advance2 st start_id end_id with
                    next_client_id := if client_id = 1 then 2 else 1 }, rows⟩
            else ⟨some .dbError, st, []⟩

def stop2 (st : DualState) : DualState := { st with running := false, paused := false }

/-- One iteration of `DualApiSequentialJob._loop` (lines 392-424): like
the single variant, except the window's exception (or success) is
recorded in `last_error` before the auto-stop check. -/
def loopStep2 (Q : Int → Int → List ItemRow)
    (A1 A2 : List (List Nat) → Except PyErr PyVal)
    (IL : List Nat → Option Int) (PL : Int → List Nat → Option Int)
    (writeOk : Bool) (st : DualState) : DualState :=
  if st.paused then st
  else
    let r := runOneRange2 Q A1 A2 IL PL writeOk st
    let st1 : DualState := { r.st with last_error := r.err }
    if st1.max_id ≤ st1.completed_count then stop2 st1 else st1

/-- What `start()` hands back to the HTTP layer: the status snapshot, or
the structured configuration-error object
`{"running": False, "paused": False, "error": <message>}` carrying the
fixed message string. -/
inductive StartResult where
  | status : StartResult
  | configError : List Nat → StartResult
deriving DecidableEq, Repr

/-- Python `x or default` for the optional integer arguments of
`start()` (`None` and `0` both fall back to the default). -/
def pyOrDefault (v : Option Int) (d : Int) : Int :=
  match v with
  | some n => if n ≠ 0 then n else d
  | Option.none => d

/-- Embedding of `DualApiSequentialJob.start` (lines 322-355). `key1ok`/
`key2ok` model the truthiness of `self.clientN and clientN.api_key`;
`dbMax` is the `max(Item.id)` snapshot. The two credential checks come
before any state mutation. -/
def start2 (key1ok key2ok : Bool) (dbMax : Int)
    (sid bs isec : Option Int) (defBatch defInterval : Int)
    (st : DualState) : DualState × StartResult :=
  if st.running then (st, .status)
  else if !key1ok then (st, .configError (sc "未配置 STEAMDT_API_KEY_1"))
  else if !key2ok then (st, .configError (sc "未配置 STEAMDT_API_KEY_2"))
  else
    ({ running := true
       paused := false
       batch_size := max 1 (pyOrDefault bs defBatch)
       interval_sec := max 1 (pyOrDefault isec defInterval)
       max_id := dbMax
       current_start_id := pyOrDefault sid 1
       completed_count := max 0 (pyOrDefault sid 1 - 1)
       last_processed_range := Option.none
       next_client_id := 1
       last_error := Option.none }, .status)

/-! ## Well-formedness of an API response
(the fragment of response shapes on which the normalizer cannot raise) -/

/-- A platform entry the normalizer can process: a dict whose
platform-name chain resolves to a string (the chain's default is `""`,
so this only excludes dicts whose first truthy name key is a non-string). -/
def platEntryWF : PyVal → Bool
  | .dict pd => match platNameChain pd with | .str _ => true | _ => false
  | _ => false

/-- The platform container of one item entry is benign: a single dict or
a list of processable dicts. -/
def platsWF (d : List (List Nat × PyVal)) : Bool :=
  match platsChain d with
  | .dict pd => platEntryWF (.dict pd)
  | .list l => l.all platEntryWF
  | _ => false

/-- One data-list entry the normalizer can process: a dict whose name
chain resolves to a string, and (unless the name strips to empty, which
short-circuits the entry) a benign platform container. -/
def entryWF : PyVal → Bool
  | .dict d =>
    match mhnChain d with
    | .str s => (pyStrip s).isEmpty || platsWF d
    | _ => false
  | _ => false

/-- All entries of the extracted data list are processable. -/
def respWF (resp : PyVal) : Bool := (extractDataList resp).all entryWF

/-! ## Concrete environments used in counterexamples and witnesses -/

/-- Item lookup that resolves nothing (empty `items` table view). -/
def noLookupIL : List Nat → Option Int := fun _ => Option.none

/-- Platform lookup that resolves nothing. -/
def noLookupPL : Int → List Nat → Option Int := fun _ _ => Option.none

/-- A catalog range query returning no rows. -/
def emptyQ : Int → Int → List ItemRow := fun _ _ => []

/-- A catalog range query returning one row with an empty name. -/
def unnamedQ : Int → Int → List ItemRow := fun s _ => [⟨s, []⟩]

/-- A catalog range query returning one named row. -/
def oneItemQ : Int → Int → List ItemRow := fun s _ => [⟨s, sc "AK-47"⟩]

/-- A price client that succeeds with an empty payload. -/
def okApi : List (List Nat) → Except PyErr PyVal := fun _ => .ok (.dict [])

/-- A price client whose call raises. -/
def failApi : List (List Nat) → Except PyErr PyVal := fun _ => .error .typeError

/-- A running single-variant scheduler before its first window:
`max_id = 200`, cursor 1, `batch_size = 100`. -/
def stV1 : JobState :=
  { running := true, paused := false, max_id := 200, completed_count := 0,
    current_start_id := 1, batch_size := 100, interval_sec := 60,
    last_processed_range := Option.none }

/-- The analogous running dual-variant scheduler, credential 1 next. -/
def stV2 : DualState :=
  { running := true, paused := false, max_id := 200, completed_count := 0,
    current_start_id := 1, batch_size := 100, interval_sec := 30,
    last_processed_range := Option.none, next_client_id := 1,
    last_error := Option.none }

/-- A freshly constructed (idle) dual-variant scheduler, as after
`DualApiSequentialJob.__init__`. -/
def stIdle2 : DualState :=
  { running := false, paused := false, max_id := 0, completed_count := 0,
    current_start_id := 0, batch_size := 100, interval_sec := 30,
    last_processed_range := Option.none, next_client_id := 1,
    last_error := Option.none }

/-- A well-formed API response with one item and one platform entry. -/
def sampleResp : PyVal :=
  .dict [(sc "data", .list [.dict
    [(sc "marketHashName", .str (sc "AK-47")),
     (sc "platforms", .list [.dict
       [(sc "platform", .str (sc "C5")), (sc "price", .int 5)]])]])]

/-- The scheduler state right after `start(start_id=1)` on a catalog whose
maximum id is `maxId`, with window size `b` (`completed_count = 0`,
cursor 1, as set by `start`, lines 87-89). -/
def initState (maxId b : Int) : JobState :=
  { running := true, paused := false, max_id := maxId, completed_count := 0,
    current_start_id := 1, batch_size := b, interval_sec := 60,
    last_processed_range := Option.none }

/-- The loop invariant of the single-variant scheduler on a healthy
catalog: the snapshot parameters are untouched, `completed_count` trails
the cursor by one, the cursor stays within `[1, max_id + 1]`, and a
stopped job has exhausted the catalog. -/
def schedInv (maxId b : Int) (s : JobState) : Prop :=
  s.paused = false ∧ s.max_id = maxId ∧ s.batch_size = b ∧
  s.completed_count = s.current_start_id - 1 ∧
  1 ≤ s.current_start_id ∧ s.current_start_id ≤ maxId + 1 ∧
  (s.running = false → s.current_start_id = maxId + 1)

theorem pyUpperCode_idem (c : Nat) : pyUpperCode (pyUpperCode c) = pyUpperCode c := by
  unfold pyUpperCode
  by_cases h : 97 ≤ c ∧ c ≤ 122
  · rw [if_pos h, if_neg (by omega)]
  · rw [if_neg h, if_neg h]

theorem isSpaceCode_pyUpperCode (c : Nat) :
    isSpaceCode (pyUpperCode c) = isSpaceCode c := by
  unfold pyUpperCode isSpaceCode
  split <;> [skip; rfl]
  exact decide_eq_decide.mpr (by omega)

theorem pyUpper_idem (l : List Nat) : pyUpper (pyUpper l) = pyUpper l := by
  unfold pyUpper
  rw [List.map_map]
  exact List.map_congr_left fun c _ => pyUpperCode_idem c

/-- The head of an already left-stripped list is not whitespace. -/
theorem pyStrip_dropWhile (l : List Nat) :
    List.dropWhile isSpaceCode (pyStrip l) = pyStrip l := by
  unfold pyStrip
  set m := List.dropWhile isSpaceCode l with hm
  rcases hpre : List.rdropWhile isSpaceCode m with _ | ⟨a, t⟩
  · rfl
  · rw [List.dropWhile_cons]
    have hhead : m.head? = some a := by
      have hp : List.rdropWhile isSpaceCode m <+: m := List.rdropWhile_prefix _ _
      rw [hpre] at hp
      rcases hp with ⟨s, hs⟩
      rw [← hs]; rfl
    have : ¬ isSpaceCode a = true := by
      intro ha
      have h0 : m ≠ [] := by
        intro h; rw [h] at hhead; simp at hhead
      have := List.head?_dropWhile_not isSpaceCode l
      rw [← hm] at this
      rw [hhead] at this
      simp [ha] at this
    simp [this]

theorem pyStrip_idem (l : List Nat) : pyStrip (pyStrip l) = pyStrip l := by
  conv_lhs => rw [pyStrip, pyStrip_dropWhile]
  rw [pyStrip]
  exact List.rdropWhile_idempotent _ _

theorem pyStrip_pyUpper (l : List Nat) :
    pyStrip (pyUpper l) = pyUpper (pyStrip l) := by
  unfold pyStrip pyUpper
  have hfun : isSpaceCode ∘ pyUpperCode = isSpaceCode := funext isSpaceCode_pyUpperCode
  have hdw : ∀ t : List Nat,
      List.dropWhile isSpaceCode (t.map pyUpperCode) =
        (List.dropWhile isSpaceCode t).map pyUpperCode := by
    intro t
    rw [List.dropWhile_map, hfun]
  rw [hdw]
  simp only [List.rdropWhile]
  rw [← List.map_reverse, hdw, ← List.map_reverse]

/-- C8 helper: the strip-then-upper normalisation is idempotent. -/
theorem pyUpper_pyStrip_idem (l : List Nat) :
    pyUpper (pyStrip (pyUpper (pyStrip l))) = pyUpper (pyStrip l) := by
  rw [pyStrip_pyUpper, pyStrip_idem, pyUpper_idem]

/-- C8: canonicalization is idempotent. -/
theorem canonical_idem (s : List Nat) :
    canonical_platform_name (canonical_platform_name s) = canonical_platform_name s := by
  unfold canonical_platform_name
  by_cases h1 : pyUpper (pyStrip s) = sc "C5"
  · simp only [h1, if_pos rfl]
    decide
  · by_cases h2 : pyUpper (pyStrip s) = sc "HALO"
    · simp only [h2, if_neg h1, if_pos rfl]
      decide
    · simp only [if_neg h1, if_neg h2]
      rw [pyUpper_pyStrip_idem]
      simp only [if_neg h1, if_neg h2]

/-! ## Normalizer helper lemmas -/

theorem ok_bind {α β : Type} (x : α) (f : α → Except PyErr β) :
    (Except.ok x >>= f : Except PyErr β) = f x := rfl

theorem mapM_ok_of_forall {α β : Type} (f : α → Except PyErr β) (l : List α)
    (h : ∀ x ∈ l, ∃ y, f x = .ok y) : ∃ ys, l.mapM f = .ok ys := by
  induction l with
  | nil => exact ⟨[], rfl⟩
  | cons a t ih =>
    obtain ⟨y, hy⟩ := h a (List.mem_cons_self a t)
    obtain ⟨ys, hys⟩ := ih fun x hx => h x (List.mem_cons_of_mem _ hx)
    refine ⟨y :: ys, ?_⟩
    rw [List.mapM_cons, hy, hys]
    rfl

theorem canonicalOfVal_str (s : List Nat) : ∃ c, canonicalOfVal (.str s) = .ok c := by
  unfold canonicalOfVal
  split
  · exact ⟨_, rfl⟩
  · exact ⟨_, rfl⟩

theorem extractPlatform_ok (PL : Int → List Nat → Option Int) (mhn : List Nat)
    (iid : Option Int) (p : PyVal) (h : platEntryWF p = true) :
    ∃ r, extractPlatform PL mhn iid p = .ok r := by
  cases p with
  | dict pd =>
    rcases hn : platNameChain pd with _ | b | n | q | s | l | d
    · simp [platEntryWF, hn] at h
    · simp [platEntryWF, hn] at h
    · simp [platEntryWF, hn] at h
    · simp [platEntryWF, hn] at h
    · obtain ⟨c, hc⟩ := canonicalOfVal_str s
      cases hres : extractPlatform PL mhn iid (.dict pd) with
      | ok r => exact ⟨r, rfl⟩
      | error e =>
        simp only [extractPlatform, hn, hc, ok_bind] at hres
        exact absurd hres (by simp)
    · simp [platEntryWF, hn] at h
    · simp [platEntryWF, hn] at h
  | none => simp [platEntryWF] at h
  | bool b => simp [platEntryWF] at h
  | int n => simp [platEntryWF] at h
  | float q => simp [platEntryWF] at h
  | str s => simp [platEntryWF] at h
  | list l => simp [platEntryWF] at h

theorem normalizeEntry_ok (IL : List Nat → Option Int) (PL : Int → List Nat → Option Int)
    (it : PyVal) (h : entryWF it = true) :
    ∃ rs, normalizeEntry IL PL it = .ok rs := by
  cases it with
  | dict d =>
    rcases hm : mhnChain d with _ | b | n | q | s | l | dd
    · simp [entryWF, hm] at h
    · simp [entryWF, hm] at h
    · simp [entryWF, hm] at h
    · simp [entryWF, hm] at h
    · simp only [entryWF, hm] at h
      by_cases he : (pyStrip s).isEmpty = true
      · refine ⟨[], ?_⟩
        simp only [normalizeEntry, hm, stripOfVal, ok_bind]
        rw [if_pos he]
      · have hw : platsWF d = true := by
          rcases Bool.or_eq_true_iff.mp h with h1 | h1
          · exact absurd h1 he
          · exact h1
        rcases hp : platsChain d with _ | b | n | q | s2 | l | pd
        · simp [platsWF, hp] at hw
        · simp [platsWF, hp] at hw
        · simp [platsWF, hp] at hw
        · simp [platsWF, hp] at hw
        · simp [platsWF, hp] at hw
        · simp only [platsWF, hp, List.all_eq_true] at hw
          obtain ⟨ys, hys⟩ := mapM_ok_of_forall (extractPlatform PL (pyStrip s) (IL (pyStrip s))) l
            (fun x hx => extractPlatform_ok _ _ _ _ (hw x hx))
          refine ⟨ys, ?_⟩
          simp only [normalizeEntry, hm, stripOfVal, ok_bind]
          rw [if_neg he]
          simp only [hp, pyIter, ok_bind]
          exact hys
        · simp only [platsWF, hp] at hw
          obtain ⟨r, hr⟩ := extractPlatform_ok PL (pyStrip s) (IL (pyStrip s)) (.dict pd) hw
          refine ⟨[r], ?_⟩
          simp only [normalizeEntry, hm, stripOfVal, ok_bind]
          rw [if_neg he]
          simp only [hp, ok_bind]
          rw [List.mapM_cons, hr]
          rfl
    · simp [entryWF, hm] at h
    · simp [entryWF, hm] at h
  | none => simp [entryWF] at h
  | bool b => simp [entryWF] at h
  | int n => simp [entryWF] at h
  | float q => simp [entryWF] at h
  | str s => simp [entryWF] at h
  | list l => simp [entryWF] at h

theorem normalizeResp_ok (IL : List Nat → Option Int) (PL : Int → List Nat → Option Int)
    (resp : PyVal) (h : respWF resp = true) :
    ∃ rows, normalizeResp IL PL resp = .ok rows := by
  simp only [respWF, List.all_eq_true] at h
  obtain ⟨ys, hys⟩ := mapM_ok_of_forall (normalizeEntry IL PL) (extractDataList resp)
    (fun x hx => normalizeEntry_ok _ _ _ (h x hx))
  exact ⟨ys.flatten, by simp only [normalizeResp, hys]; rfl⟩

/-! ## Window-run helper lemmas -/

theorem run1_err_frame (Q : Int → Int → List ItemRow) (A : List (List Nat) → Except PyErr PyVal)
    (IL : List Nat → Option Int) (PL : Int → List Nat → Option Int) (w : Bool) (st : JobState) :
    (runOneRange1 Q A IL PL w st).err = Option.none ∨
    ((runOneRange1 Q A IL PL w st).st = st ∧ (runOneRange1 Q A IL PL w st).written = []) := by
  simp only [runOneRange1]
  split
  · exact Or.inl rfl
  · split
    · exact Or.inl rfl
    · split
      · exact Or.inl rfl
      · split
        · exact Or.inr ⟨rfl, rfl⟩
        · split
          · exact Or.inr ⟨rfl, rfl⟩
          · split
            · exact Or.inl rfl
            · exact Or.inr ⟨rfl, rfl⟩

theorem run2_err_frame (Q : Int → Int → List ItemRow) (A1 A2 : List (List Nat) → Except PyErr PyVal)
    (IL : List Nat → Option Int) (PL : Int → List Nat → Option Int) (w : Bool) (st : DualState) :
    (runOneRange2 Q A1 A2 IL PL w st).err = Option.none ∨
    ((runOneRange2 Q A1 A2 IL PL w st).st = st ∧ (runOneRange2 Q A1 A2 IL PL w st).written = []) := by
  simp only [runOneRange2]
  split
  · exact Or.inl rfl
  · split
    · exact Or.inl rfl
    · split
      · exact Or.inl rfl
      · split
        · exact Or.inr ⟨rfl, rfl⟩
        · split
          · exact Or.inr ⟨rfl, rfl⟩
          · split
            · exact Or.inl rfl
            · exact Or.inr ⟨rfl, rfl⟩

theorem run1_reaches_write (Q : Int → Int → List ItemRow) (A : List (List Nat) → Except PyErr PyVal)
    (IL : List Nat → Option Int) (PL : Int → List Nat → Option Int) (w : Bool) (st : JobState)
    (hs1 : 1 ≤ st.current_start_id) (hs2 : st.current_start_id ≤ st.max_id) (hb : 1 ≤ st.batch_size)
    (hit : (Q st.current_start_id (min st.max_id (st.current_start_id + st.batch_size - 1))).isEmpty = false)
    (hnm : (itemNames (Q st.current_start_id (min st.max_id (st.current_start_id + st.batch_size - 1)))).isEmpty = false)
    (v : PyVal) (rows : List PriceRow)
    (hapi : A (itemNames (Q st.current_start_id (min st.max_id (st.current_start_id + st.batch_size - 1)))) = .ok v)
    (hnorm : normalizeResp IL PL v = .ok rows) :
    runOneRange1 Q A IL PL w st =
      if w then
        ⟨Option.none,
          advance1 st st.current_start_id (min st.max_id (st.current_start_id + st.batch_size - 1)), rows⟩
      else ⟨some .dbError, st, []⟩ := by
  have hg : ¬ (st.current_start_id > min st.max_id (st.current_start_id + st.batch_size - 1) ∨
      st.current_start_id ≤ 0) := by
    push_neg
    exact ⟨le_min hs2 (by omega), by omega⟩
  simp only [runOneRange1]
  rw [if_neg hg]
  simp only [hit, hnm, hapi, hnorm]
  rfl

theorem run2_reaches_write (Q : Int → Int → List ItemRow) (A1 A2 : List (List Nat) → Except PyErr PyVal)
    (IL : List Nat → Option Int) (PL : Int → List Nat → Option Int) (w : Bool) (st : DualState)
    (hs1 : 1 ≤ st.current_start_id) (hs2 : st.current_start_id ≤ st.max_id) (hb : 1 ≤ st.batch_size)
    (hit : (Q st.current_start_id (min st.max_id (st.current_start_id + st.batch_size - 1))).isEmpty = false)
    (hnm : (itemNames (Q st.current_start_id (min st.max_id (st.current_start_id + st.batch_size - 1)))).isEmpty = false)
    (v : PyVal) (rows : List PriceRow)
    (hapi : (if st.next_client_id = 1 then A1 else A2)
      (itemNames (Q st.current_start_id (min st.max_id (st.current_start_id + st.batch_size - 1)))) = .ok v)
    (hnorm : normalizeResp IL PL v = .ok rows) :
    runOneRange2 Q A1 A2 IL PL w st =
      if w then
        ⟨Option.none,
          { advance2 st st.current_start_id (min st.max_id (st.current_start_id + st.batch_size - 1)) with
              next_client_id := if st.next_client_id = 1 then 2 else 1 }, rows⟩
      else ⟨some .dbError, st, []⟩ := by
  have hg : ¬ (st.current_start_id > min st.max_id (st.current_start_id + st.batch_size - 1) ∨
      st.current_start_id ≤ 0) := by
    push_neg
    exact ⟨le_min hs2 (by omega), by omega⟩
  simp only [runOneRange2]
  rw [if_neg hg]
  simp only [hit, hnm, hapi, hnorm]
  rfl

/-! ## Scheduler trajectory lemmas (the healthy-catalog run used for C4) -/

theorem stop1_eq_self {st : JobState} (h1 : st.running = false) (h2 : st.paused = false) :
    stop1 st = st := by
  cases st
  simp_all [stop1]

theorem itemNames_nonempty {items : List ItemRow} {it : ItemRow}
    (hmem : it ∈ items) (hname : it.market_hash_name ≠ []) :
    (itemNames items).isEmpty = false := by
  have h1 : it.market_hash_name ∈ itemNames items := by
    unfold itemNames
    exact List.mem_map_of_mem _ (List.mem_filter.mpr ⟨hmem, by simpa [List.isEmpty_iff] using hname⟩)
  rcases hn : itemNames items with _ | _
  · rw [hn] at h1; simp at h1
  · rfl

theorem items_nonempty_of_mem {items : List ItemRow} {it : ItemRow} (hmem : it ∈ items) :
    items.isEmpty = false := by
  cases items
  · simp at hmem
  · rfl

theorem run1_full_success (Q : Int → Int → List ItemRow) (A : List (List Nat) → Except PyErr PyVal)
    (IL : List Nat → Option Int) (PL : Int → List Nat → Option Int)
    (hQ : ∀ s e : Int, 1 ≤ s → s ≤ e → ∃ it, it ∈ Q s e ∧ it.market_hash_name ≠ [])
    (hA : ∀ ns, ∃ v rows, A ns = .ok v ∧ normalizeResp IL PL v = .ok rows)
    (st : JobState) (hs1 : 1 ≤ st.current_start_id) (hs2 : st.current_start_id ≤ st.max_id)
    (hb : 1 ≤ st.batch_size) :
    ∃ rows, runOneRange1 Q A IL PL true st =
      ⟨Option.none,
        advance1 st st.current_start_id (min st.max_id (st.current_start_id + st.batch_size - 1)),
        rows⟩ := by
  have he : st.current_start_id ≤ min st.max_id (st.current_start_id + st.batch_size - 1) :=
    le_min hs2 (by omega)
  obtain ⟨it, hmem, hname⟩ := hQ st.current_start_id
    (min st.max_id (st.current_start_id + st.batch_size - 1)) hs1 he
  obtain ⟨v, rows, hapi, hnorm⟩ :=
    hA (itemNames (Q st.current_start_id (min st.max_id (st.current_start_id + st.batch_size - 1))))
  refine ⟨rows, ?_⟩
  rw [run1_reaches_write Q A IL PL true st hs1 hs2 hb (items_nonempty_of_mem hmem)
    (itemNames_nonempty hmem hname) v rows hapi hnorm]
  rw [if_pos rfl]

theorem loopStep1_active (Q : Int → Int → List ItemRow) (A : List (List Nat) → Except PyErr PyVal)
    (IL : List Nat → Option Int) (PL : Int → List Nat → Option Int)
    (hQ : ∀ s e : Int, 1 ≤ s → s ≤ e → ∃ it, it ∈ Q s e ∧ it.market_hash_name ≠ [])
    (hA : ∀ ns, ∃ v rows, A ns = .ok v ∧ normalizeResp IL PL v = .ok rows)
    (st : JobState) (hpaused : st.paused = false) (hb : 1 ≤ st.batch_size)
    (hs1 : 1 ≤ st.current_start_id) (hcur : st.current_start_id ≤ st.max_id) :
    loopStep1 Q A IL PL true st =
      if st.max_id ≤ min st.max_id (st.current_start_id + st.batch_size - 1)
      then stop1 (advance1 st st.current_start_id (min st.max_id (st.current_start_id + st.batch_size - 1)))
      else advance1 st st.current_start_id (min st.max_id (st.current_start_id + st.batch_size - 1)) := by
  obtain ⟨rows, hr⟩ := run1_full_success Q A IL PL hQ hA st hs1 hcur hb
  simp only [loopStep1]
  rw [if_neg (by simp [hpaused]), hr]
  dsimp only [advance1]

theorem loopStep1_done (Q : Int → Int → List ItemRow) (A : List (List Nat) → Except PyErr PyVal)
    (IL : List Nat → Option Int) (PL : Int → List Nat → Option Int) (w : Bool) (st : JobState)
    (hpaused : st.paused = false)
    (hcur : st.current_start_id = st.max_id + 1) (hcomp : st.completed_count = st.max_id) :
    loopStep1 Q A IL PL w st = stop1 st := by
  simp only [loopStep1, runOneRange1]
  rw [if_neg (by simp [hpaused])]
  rw [if_pos (Or.inl (lt_of_le_of_lt (min_le_left _ _) (by omega)))]
  rw [if_pos (show st.max_id ≤ st.completed_count by omega)]

section SchedulerTrajectory

variable (Q : Int → Int → List ItemRow) (A : List (List Nat) → Except PyErr PyVal)
variable (IL : List Nat → Option Int) (PL : Int → List Nat → Option Int)
variable (maxId b : Int)

theorem c4_step (hb : 1 ≤ b)
    (hQ : ∀ s e : Int, 1 ≤ s → s ≤ e → ∃ it, it ∈ Q s e ∧ it.market_hash_name ≠ [])
    (hA : ∀ ns, ∃ v rows, A ns = .ok v ∧ normalizeResp IL PL v = .ok rows)
    (st : JobState) (hinv : schedInv maxId b st) :
    (st.running = true ∧ st.current_start_id ≤ maxId ∧
      loopStep1 Q A IL PL true st =
        (if maxId ≤ min maxId (st.current_start_id + b - 1)
         then stop1 (advance1 st st.current_start_id (min maxId (st.current_start_id + b - 1)))
         else advance1 st st.current_start_id (min maxId (st.current_start_id + b - 1))))
    ∨ (loopStep1 Q A IL PL true st = stop1 st ∧ st.current_start_id = maxId + 1) := by
  obtain ⟨hp, hmx, hbs, hcomp, h1, h2, hrf⟩ := hinv
  by_cases hrun : st.running = true
  · by_cases hcur : st.current_start_id ≤ maxId
    · left
      refine ⟨hrun, hcur, ?_⟩
      have hstep := loopStep1_active Q A IL PL hQ hA st hp (by omega) h1 (by omega)
      rw [hstep, hmx, hbs]
    · right
      have hc : st.current_start_id = maxId + 1 := by omega
      exact ⟨loopStep1_done Q A IL PL true st hp (by omega) (by omega), hc⟩
  · right
    have hc : st.current_start_id = maxId + 1 := hrf (by simpa using hrun)
    exact ⟨loopStep1_done Q A IL PL true st hp (by omega) (by omega), hc⟩

theorem c4_inv (hm : 0 ≤ maxId) (hb : 1 ≤ b)
    (hQ : ∀ s e : Int, 1 ≤ s → s ≤ e → ∃ it, it ∈ Q s e ∧ it.market_hash_name ≠ [])
    (hA : ∀ ns, ∃ v rows, A ns = .ok v ∧ normalizeResp IL PL v = .ok rows) :
    ∀ k, schedInv maxId b (traj1 Q A IL PL true (initState maxId b) k) := by
  intro k
  induction k with
  | zero =>
    refine ⟨rfl, rfl, rfl, ?_, ?_, ?_, ?_⟩ <;> simp [traj1, initState, schedInv] <;> omega
  | succ k ih =>
    rcases c4_step Q A IL PL maxId b hb hQ hA _ ih with ⟨hrun, hcur, hstep⟩ | ⟨hstep, hc⟩
    · obtain ⟨hp, hmx, hbs, hcomp, h1, h2, hrf⟩ := ih
      show schedInv maxId b (loopStep1 Q A IL PL true (traj1 Q A IL PL true (initState maxId b) k))
      rw [hstep]
      have he1 : min maxId ((traj1 Q A IL PL true (initState maxId b) k).current_start_id + b - 1) ≤ maxId :=
        min_le_left _ _
      have he2 : (traj1 Q A IL PL true (initState maxId b) k).current_start_id ≤
          min maxId ((traj1 Q A IL PL true (initState maxId b) k).current_start_id + b - 1) :=
        le_min hcur (by omega)
      split
      · refine ⟨rfl, ?_, ?_, ?_, ?_, ?_, ?_⟩ <;> simp [stop1, advance1] <;> omega
      · refine ⟨?_, ?_, ?_, ?_, ?_, ?_, ?_⟩ <;> simp [advance1, hp, hmx, hbs, hrun] <;> omega
    · obtain ⟨hp, hmx, hbs, hcomp, h1, h2, hrf⟩ := ih
      show schedInv maxId b (loopStep1 Q A IL PL true (traj1 Q A IL PL true (initState maxId b) k))
      rw [hstep]
      refine ⟨rfl, ?_, ?_, ?_, ?_, ?_, ?_⟩ <;> simp [stop1] <;> omega

theorem c4_stable (hm : 0 ≤ maxId) (hb : 1 ≤ b)
    (hQ : ∀ s e : Int, 1 ≤ s → s ≤ e → ∃ it, it ∈ Q s e ∧ it.market_hash_name ≠ [])
    (hA : ∀ ns, ∃ v rows, A ns = .ok v ∧ normalizeResp IL PL v = .ok rows)
    (k : Nat) (hrun : (traj1 Q A IL PL true (initState maxId b) k).running = false) :
    traj1 Q A IL PL true (initState maxId b) (k + 1)
      = traj1 Q A IL PL true (initState maxId b) k := by
  obtain ⟨hp, hmx, hbs, hcomp, h1, h2, hrf⟩ := c4_inv Q A IL PL maxId b hm hb hQ hA k
  have hc := hrf hrun
  show loopStep1 Q A IL PL true (traj1 Q A IL PL true (initState maxId b) k) = _
  rw [loopStep1_done Q A IL PL true _ hp (by omega) (by omega), stop1_eq_self hrun hp]

theorem c4_running_mono (hm : 0 ≤ maxId) (hb : 1 ≤ b)
    (hQ : ∀ s e : Int, 1 ≤ s → s ≤ e → ∃ it, it ∈ Q s e ∧ it.market_hash_name ≠ [])
    (hA : ∀ ns, ∃ v rows, A ns = .ok v ∧ normalizeResp IL PL v = .ok rows)
    (k : Nat) (hrun : (traj1 Q A IL PL true (initState maxId b) (k + 1)).running = true) :
    (traj1 Q A IL PL true (initState maxId b) k).running = true := by
  by_contra h
  have h0 : (traj1 Q A IL PL true (initState maxId b) k).running = false := by
    cases hh : (traj1 Q A IL PL true (initState maxId b) k).running
    · rfl
    · exact absurd hh h
  rw [c4_stable Q A IL PL maxId b hm hb hQ hA k h0] at hrun
  rw [hrun] at h0
  exact Bool.noConfusion h0

theorem c4_cursor_lb (hm : 0 ≤ maxId) (hb : 1 ≤ b)
    (hQ : ∀ s e : Int, 1 ≤ s → s ≤ e → ∃ it, it ∈ Q s e ∧ it.market_hash_name ≠ [])
    (hA : ∀ ns, ∃ v rows, A ns = .ok v ∧ normalizeResp IL PL v = .ok rows) :
    ∀ k, (traj1 Q A IL PL true (initState maxId b) k).running = true →
      1 + (k : Int) ≤ (traj1 Q A IL PL true (initState maxId b) k).current_start_id := by
  intro k
  induction k with
  | zero => intro _; simp [traj1, initState]
  | succ k ih =>
    intro hrun1
    have hrun0 := c4_running_mono Q A IL PL maxId b hm hb hQ hA k hrun1
    obtain ⟨hp, hmx, hbs, hcomp, h1, h2, hrf⟩ := c4_inv Q A IL PL maxId b hm hb hQ hA k
    have hlb := ih hrun0
    rcases c4_step Q A IL PL maxId b hb hQ hA _
        (c4_inv Q A IL PL maxId b hm hb hQ hA k) with ⟨_, hcur, hstep⟩ | ⟨hstep, hc⟩
    · have he2 : (traj1 Q A IL PL true (initState maxId b) k).current_start_id ≤
          min maxId ((traj1 Q A IL PL true (initState maxId b) k).current_start_id + b - 1) :=
        le_min hcur (by omega)
      show 1 + ((k : Int) + 1) ≤ (traj1 Q A IL PL true (initState maxId b) (k + 1)).current_start_id
      have hT : traj1 Q A IL PL true (initState maxId b) (k + 1)
          = loopStep1 Q A IL PL true (traj1 Q A IL PL true (initState maxId b) k) := rfl
      rw [hT, hstep]
      split
      · exfalso
        rw [hT, hstep] at hrun1
        rw [if_pos (by assumption)] at hrun1
        simp [stop1] at hrun1
      · simp only [advance1]
        omega
    · exfalso
      rw [show traj1 Q A IL PL true (initState maxId b) (k + 1)
          = loopStep1 Q A IL PL true (traj1 Q A IL PL true (initState maxId b) k) from rfl,
        hstep] at hrun1
      simp [stop1] at hrun1

theorem c4_mono_succ (hm : 0 ≤ maxId) (hb : 1 ≤ b)
    (hQ : ∀ s e : Int, 1 ≤ s → s ≤ e → ∃ it, it ∈ Q s e ∧ it.market_hash_name ≠ [])
    (hA : ∀ ns, ∃ v rows, A ns = .ok v ∧ normalizeResp IL PL v = .ok rows)
    (k : Nat) :
    (traj1 Q A IL PL true (initState maxId b) k).current_start_id ≤
      (traj1 Q A IL PL true (initState maxId b) (k + 1)).current_start_id := by
  obtain ⟨hp, hmx, hbs, hcomp, h1, h2, hrf⟩ := c4_inv Q A IL PL maxId b hm hb hQ hA k
  have hT : traj1 Q A IL PL true (initState maxId b) (k + 1)
      = loopStep1 Q A IL PL true (traj1 Q A IL PL true (initState maxId b) k) := rfl
  rcases c4_step Q A IL PL maxId b hb hQ hA _
      (c4_inv Q A IL PL maxId b hm hb hQ hA k) with ⟨_, hcur, hstep⟩ | ⟨hstep, hc⟩
  · have he2 : (traj1 Q A IL PL true (initState maxId b) k).current_start_id ≤
        min maxId ((traj1 Q A IL PL true (initState maxId b) k).current_start_id + b - 1) :=
      le_min hcur (by omega)
    rw [hT, hstep]
    split
    · simp only [stop1, advance1]; omega
    · simp only [advance1]; omega
  · rw [hT, hstep]
    simp [stop1]

theorem c4_mono (hm : 0 ≤ maxId) (hb : 1 ≤ b)
    (hQ : ∀ s e : Int, 1 ≤ s → s ≤ e → ∃ it, it ∈ Q s e ∧ it.market_hash_name ≠ [])
    (hA : ∀ ns, ∃ v rows, A ns = .ok v ∧ normalizeResp IL PL v = .ok rows)
    (j k : Nat) (hjk : j ≤ k) :
    (traj1 Q A IL PL true (initState maxId b) j).current_start_id ≤
      (traj1 Q A IL PL true (initState maxId b) k).current_start_id := by
  induction k with
  | zero =>
    have h0 : j = 0 := Nat.le_zero.mp hjk
    subst h0; exact le_refl _
  | succ k ih =>
    by_cases h : j ≤ k
    · exact le_trans (ih h) (c4_mono_succ Q A IL PL maxId b hm hb hQ hA k)
    · have h1 : j = k + 1 := by omega
      subst h1; exact le_refl _

theorem c4_window (hm : 0 ≤ maxId) (hb : 1 ≤ b)
    (hQ : ∀ s e : Int, 1 ≤ s → s ≤ e → ∃ it, it ∈ Q s e ∧ it.market_hash_name ≠ [])
    (hA : ∀ ns, ∃ v rows, A ns = .ok v ∧ normalizeResp IL PL v = .ok rows)
    (k : Nat) (hrun : (traj1 Q A IL PL true (initState maxId b) k).running = true)
    (hcur : (traj1 Q A IL PL true (initState maxId b) k).current_start_id ≤ maxId) :
    (traj1 Q A IL PL true (initState maxId b) (k + 1)).last_processed_range
      = some ((traj1 Q A IL PL true (initState maxId b) k).current_start_id,
          min maxId ((traj1 Q A IL PL true (initState maxId b) k).current_start_id + b - 1))
    ∧ (traj1 Q A IL PL true (initState maxId b) (k + 1)).current_start_id
      = min maxId ((traj1 Q A IL PL true (initState maxId b) k).current_start_id + b - 1) + 1
    ∧ (traj1 Q A IL PL true (initState maxId b) (k + 1)).completed_count
      = min maxId ((traj1 Q A IL PL true (initState maxId b) k).current_start_id + b - 1) := by
  have hT : traj1 Q A IL PL true (initState maxId b) (k + 1)
      = loopStep1 Q A IL PL true (traj1 Q A IL PL true (initState maxId b) k) := rfl
  rcases c4_step Q A IL PL maxId b hb hQ hA _
      (c4_inv Q A IL PL maxId b hm hb hQ hA k) with ⟨_, _, hstep⟩ | ⟨hstep, hc⟩
  · rw [hT, hstep]
    split
    · exact ⟨rfl, rfl, rfl⟩
    · exact ⟨rfl, rfl, rfl⟩
  · exfalso; omega

theorem c4_terminated (hm : 0 ≤ maxId) (hb : 1 ≤ b)
    (hQ : ∀ s e : Int, 1 ≤ s → s ≤ e → ∃ it, it ∈ Q s e ∧ it.market_hash_name ≠ [])
    (hA : ∀ ns, ∃ v rows, A ns = .ok v ∧ normalizeResp IL PL v = .ok rows) :
    (traj1 Q A IL PL true (initState maxId b) (maxId.toNat + 1)).running = false
    ∧ (traj1 Q A IL PL true (initState maxId b) (maxId.toNat + 1)).completed_count = maxId
    ∧ (traj1 Q A IL PL true (initState maxId b) (maxId.toNat + 1)).paused = false := by
  obtain ⟨hp, hmx, hbs, hcomp, h1, h2, hrf⟩ :=
    c4_inv Q A IL PL maxId b hm hb hQ hA (maxId.toNat + 1)
  have hrun : (traj1 Q A IL PL true (initState maxId b) (maxId.toNat + 1)).running = false := by
    by_contra h
    have hr : (traj1 Q A IL PL true (initState maxId b) (maxId.toNat + 1)).running = true := by
      cases hh : (traj1 Q A IL PL true (initState maxId b) (maxId.toNat + 1)).running
      · exact absurd hh h
      · rfl
    have hlb := c4_cursor_lb Q A IL PL maxId b hm hb hQ hA (maxId.toNat + 1) hr
    have hcast : ((maxId.toNat + 1 : Nat) : Int) = maxId + 1 := by
      push_cast [Int.toNat_of_nonneg hm]
      ring
    rw [hcast] at hlb
    omega
  have hcur := hrf hrun
  exact ⟨hrun, by omega, hp⟩

theorem c4_coverage (hm : 0 ≤ maxId) (hb : 1 ≤ b)
    (hQ : ∀ s e : Int, 1 ≤ s → s ≤ e → ∃ it, it ∈ Q s e ∧ it.market_hash_name ≠ [])
    (hA : ∀ ns, ∃ v rows, A ns = .ok v ∧ normalizeResp IL PL v = .ok rows) :
    ∀ k, ∀ x : Int, 1 ≤ x →
      x < (traj1 Q A IL PL true (initState maxId b) k).current_start_id →
      ∃ j, (traj1 Q A IL PL true (initState maxId b) j).running = true
        ∧ (traj1 Q A IL PL true (initState maxId b) j).current_start_id ≤ maxId
        ∧ (traj1 Q A IL PL true (initState maxId b) j).current_start_id ≤ x
        ∧ x ≤ min maxId ((traj1 Q A IL PL true (initState maxId b) j).current_start_id + b - 1) := by
  intro k
  induction k with
  | zero =>
    intro x hx1 hx2
    exfalso
    simp [traj1, initState] at hx2
    omega
  | succ k ih =>
    intro x hx1 hx2
    by_cases hxx : x < (traj1 Q A IL PL true (initState maxId b) k).current_start_id
    · exact ih x hx1 hxx
    · push_neg at hxx
      have hT : traj1 Q A IL PL true (initState maxId b) (k + 1)
          = loopStep1 Q A IL PL true (traj1 Q A IL PL true (initState maxId b) k) := rfl
      rcases c4_step Q A IL PL maxId b hb hQ hA _
          (c4_inv Q A IL PL maxId b hm hb hQ hA k) with ⟨hrun, hcur, hstep⟩ | ⟨hstep, hc⟩
      · refine ⟨k, hrun, hcur, hxx, ?_⟩
        rw [hT, hstep] at hx2
        revert hx2
        split <;> (intro hx2; simp only [stop1, advance1] at hx2; omega)
      · exfalso
        rw [hT, hstep] at hx2
        simp only [stop1] at hx2
        omega

theorem c4_disjoint (hm : 0 ≤ maxId) (hb : 1 ≤ b)
    (hQ : ∀ s e : Int, 1 ≤ s → s ≤ e → ∃ it, it ∈ Q s e ∧ it.market_hash_name ≠ [])
    (hA : ∀ ns, ∃ v rows, A ns = .ok v ∧ normalizeResp IL PL v = .ok rows)
    (j k : Nat) (hjk : j < k)
    (hj1 : (traj1 Q A IL PL true (initState maxId b) j).running = true)
    (hj2 : (traj1 Q A IL PL true (initState maxId b) j).current_start_id ≤ maxId) :
    min maxId ((traj1 Q A IL PL true (initState maxId b) j).current_start_id + b - 1)
      < (traj1 Q A IL PL true (initState maxId b) k).current_start_id := by
  obtain ⟨-, hcurj, -⟩ := c4_window Q A IL PL maxId b hm hb hQ hA j hj1 hj2
  have hmono := c4_mono Q A IL PL maxId b hm hb hQ hA (j + 1) k hjk
  omega

end SchedulerTrajectory

/-! ## Claim theorems -/

/-- Claim C1 (code bug evidence). The claim says both job variants advance
the cursor over a window with no catalog entries. The dual variant does
(cursor to `end_id + 1`, `completed_count = end_id`, window recorded, no
client call, no rows); the single variant `PriceBatchJob._run_one_range`
returns from its `if not items: return` (line 180-181) without touching
the cursor, so the same window is retried forever. Evaluated on a
running job with `max_id = 200`, cursor 1, `batch_size = 100` and an
empty catalog window. -/
theorem claim_C1_empty_window :
    runOneRange1 emptyQ okApi noLookupIL noLookupPL true stV1 = ⟨Option.none, stV1, []⟩
    ∧ (runOneRange1 emptyQ okApi noLookupIL noLookupPL true stV1).st.current_start_id = 1
    ∧ (runOneRange1 unnamedQ okApi noLookupIL noLookupPL true stV1).st.current_start_id = 101
    ∧ (runOneRange1 unnamedQ okApi noLookupIL noLookupPL true stV1).st.completed_count = 100
    ∧ (runOneRange2 emptyQ okApi okApi noLookupIL noLookupPL true stV2).st.current_start_id = 101
    ∧ (runOneRange2 emptyQ okApi okApi noLookupIL noLookupPL true stV2).st.completed_count = 100
    ∧ (runOneRange2 emptyQ okApi okApi noLookupIL noLookupPL true stV2).st.last_processed_range
      = some (1, 100)
    ∧ (runOneRange2 emptyQ okApi okApi noLookupIL noLookupPL true stV2).written = []
    ∧ (runOneRange1 emptyQ okApi noLookupIL noLookupPL true stV1).written = [] :=
  ⟨rfl, rfl, rfl, rfl, rfl, rfl, rfl, rfl, rfl⟩

/-- Claim C2 counterexample: a window run with credential 1 whose API call
raises leaves `next_client_id = 1`, so the next window runs with
credential 1 again — not credential 2 as the claim asserts. -/
theorem claim_C2_counterexample :
    (loopStep2 oneItemQ failApi okApi noLookupIL noLookupPL true stV2).next_client_id = 1
    ∧ (loopStep2 oneItemQ failApi okApi noLookupIL noLookupPL true stV2).last_error
      = some .typeError
    ∧ stV2.next_client_id = 1 :=
  ⟨rfl, rfl, rfl⟩

/-- Claim C2 (amended): the credential pointer flips only at the end of a
fully successful window; after a window whose API call, normalization or
write raises, the pointer is unchanged, so the next window retries with
the same credential. -/
theorem claim_C2_amended :
    (∀ (Q : Int → Int → List ItemRow) (A1 A2 : List (List Nat) → Except PyErr PyVal)
       (IL : List Nat → Option Int) (PL : Int → List Nat → Option Int) (w : Bool) (st : DualState),
      st.paused = false →
      (runOneRange2 Q A1 A2 IL PL w st).err.isSome = true →
      (loopStep2 Q A1 A2 IL PL w st).next_client_id = st.next_client_id)
    ∧ (∀ (Q : Int → Int → List ItemRow) (A1 A2 : List (List Nat) → Except PyErr PyVal)
         (IL : List Nat → Option Int) (PL : Int → List Nat → Option Int) (st : DualState)
         (v : PyVal) (rows : List PriceRow),
      st.paused = false →
      1 ≤ st.current_start_id → st.current_start_id ≤ st.max_id → 1 ≤ st.batch_size →
      (Q st.current_start_id (min st.max_id (st.current_start_id + st.batch_size - 1))).isEmpty = false →
      (itemNames (Q st.current_start_id (min st.max_id (st.current_start_id + st.batch_size - 1)))).isEmpty = false →
      (if st.next_client_id = 1 then A1 else A2)
        (itemNames (Q st.current_start_id (min st.max_id (st.current_start_id + st.batch_size - 1)))) = .ok v →
      normalizeResp IL PL v = .ok rows →
      (loopStep2 Q A1 A2 IL PL true st).next_client_id = if st.next_client_id = 1 then 2 else 1) := by
  constructor
  · intro Q A1 A2 IL PL w st hp herr
    rcases run2_err_frame Q A1 A2 IL PL w st with h0 | ⟨hst, -⟩
    · rw [h0] at herr; simp at herr
    · simp only [loopStep2]
      rw [if_neg (by simp [hp])]
      split
    <;> simp [stop2, hst]
  · intro Q A1 A2 IL PL st v rows hp hs1 hs2 hb hit hnm hapi hnorm
    simp only [loopStep2]
    rw [if_neg (by simp [hp])]
    have hr := run2_reaches_write Q A1 A2 IL PL true st hs1 hs2 hb hit hnm v rows hapi hnorm
    rw [if_pos rfl] at hr
    rw [hr]
    split <;> split <;> rfl

/-- Claim C2 witness: part one at the failing-credential-1 window of the
counterexample environment, part two at a fully successful window. -/
theorem claim_C2_witness :
    (loopStep2 oneItemQ failApi okApi noLookupIL noLookupPL true stV2).next_client_id
      = stV2.next_client_id
    ∧ (loopStep2 oneItemQ okApi okApi noLookupIL noLookupPL true stV2).next_client_id
      = (if stV2.next_client_id = 1 then 2 else 1) :=
  ⟨claim_C2_amended.1 oneItemQ failApi okApi noLookupIL noLookupPL true stV2 rfl rfl,
   claim_C2_amended.2 oneItemQ okApi okApi noLookupIL noLookupPL stV2 (.dict []) [] rfl
     (by decide) (by decide) (by decide) rfl rfl (by rfl) rfl⟩

/-- Claim C3 counterexample: the normalizer is not total — a response whose
data list contains a non-dict element makes the Python loop call
`.get` on it, raising `AttributeError` (`{"data": [...]}`-shaped or bare
list alike; here the bare list `[7]`). -/
theorem claim_C3_counterexample :
    normalizeResp noLookupIL noLookupPL (.list [.int 7]) = .error .attributeError := rfl

/-- Claim C3 (amended): normalization never raises on any response whose
extracted data-list entries are dicts with a string (or absent/falsy)
name field and whose platform containers are dicts or lists of dicts
with string (or absent/falsy) platform-name fields; on such input it
returns a (possibly empty) row list, any other malformed or missing keys
and non-numeric values degrading to absent fields or skipped records. -/
theorem claim_C3_amended (IL : List Nat → Option Int) (PL : Int → List Nat → Option Int)
    (resp : PyVal) (h : respWF resp = true) :
    ∃ rows, normalizeResp IL PL resp = .ok rows :=
  normalizeResp_ok IL PL resp h

/-- Claim C3 witness: a concrete well-formed response normalizes without
raising. -/
theorem claim_C3_witness :
    respWF sampleResp = true
    ∧ ∃ rows, normalizeResp noLookupIL noLookupPL sampleResp = .ok rows :=
  ⟨by decide, claim_C3_amended noLookupIL noLookupPL sampleResp (by decide)⟩

/-- Claim C4: on a catalog where every window in range holds at least one
named item and with a client/normalizer/write that succeed, iterating
the loop from `start_id = 1` gives: cursor starts at 1, advances
monotonically, and strictly while windows remain; each processed window
is `(start, min max_id (start + batch_size - 1))`, recorded as last
processed, with `completed_count` set to its end, the next cursor just
past it, and size at most `batch_size`; windows are pairwise disjoint
and cover every id in `[1, max_id]`; and after at most `max_id + 1`
iterations `completed_count = max_id` and the loop has auto-stopped
(`running = false`, `paused = false`, i.e. idle). -/
theorem claim_C4_windowing (maxId b : Int) (hm : 0 ≤ maxId) (hb : 1 ≤ b)
    (Q : Int → Int → List ItemRow) (A : List (List Nat) → Except PyErr PyVal)
    (IL : List Nat → Option Int) (PL : Int → List Nat → Option Int)
    (hQ : ∀ s e : Int, 1 ≤ s → s ≤ e → ∃ it, it ∈ Q s e ∧ it.market_hash_name ≠ [])
    (hA : ∀ ns, ∃ v rows, A ns = .ok v ∧ normalizeResp IL PL v = .ok rows) :
    (traj1 Q A IL PL true (initState maxId b) 0).current_start_id = 1
    ∧ (∀ k, (traj1 Q A IL PL true (initState maxId b) k).current_start_id
        ≤ (traj1 Q A IL PL true (initState maxId b) (k + 1)).current_start_id)
    ∧ (∀ k, (traj1 Q A IL PL true (initState maxId b) k).running = true →
        (traj1 Q A IL PL true (initState maxId b) k).current_start_id ≤ maxId →
        (traj1 Q A IL PL true (initState maxId b) k).current_start_id
          < (traj1 Q A IL PL true (initState maxId b) (k + 1)).current_start_id
        ∧ (traj1 Q A IL PL true (initState maxId b) (k + 1)).last_processed_range
          = some ((traj1 Q A IL PL true (initState maxId b) k).current_start_id,
              min maxId ((traj1 Q A IL PL true (initState maxId b) k).current_start_id + b - 1))
        ∧ (traj1 Q A IL PL true (initState maxId b) (k + 1)).current_start_id
          = min maxId ((traj1 Q A IL PL true (initState maxId b) k).current_start_id + b - 1) + 1
        ∧ (traj1 Q A IL PL true (initState maxId b) (k + 1)).completed_count
          = min maxId ((traj1 Q A IL PL true (initState maxId b) k).current_start_id + b - 1)
        ∧ min maxId ((traj1 Q A IL PL true (initState maxId b) k).current_start_id + b - 1)
            - (traj1 Q A IL PL true (initState maxId b) k).current_start_id + 1 ≤ b)
    ∧ (∀ j k, j < k →
        (traj1 Q A IL PL true (initState maxId b) j).running = true →
        (traj1 Q A IL PL true (initState maxId b) j).current_start_id ≤ maxId →
        min maxId ((traj1 Q A IL PL true (initState maxId b) j).current_start_id + b - 1)
          < (traj1 Q A IL PL true (initState maxId b) k).current_start_id)
    ∧ (∀ x : Int, 1 ≤ x → x ≤ maxId →
        ∃ j, (traj1 Q A IL PL true (initState maxId b) j).running = true
          ∧ (traj1 Q A IL PL true (initState maxId b) j).current_start_id ≤ x
          ∧ x ≤ min maxId ((traj1 Q A IL PL true (initState maxId b) j).current_start_id + b - 1))
    ∧ (traj1 Q A IL PL true (initState maxId b) (maxId.toNat + 1)).completed_count = maxId
    ∧ (traj1 Q A IL PL true (initState maxId b) (maxId.toNat + 1)).running = false
    ∧ (traj1 Q A IL PL true (initState maxId b) (maxId.toNat + 1)).paused = false := by
  obtain ⟨hrunM, hcompM, hpM⟩ := c4_terminated Q A IL PL maxId b hm hb hQ hA
  refine ⟨rfl, c4_mono_succ Q A IL PL maxId b hm hb hQ hA, ?_, ?_, ?_, hcompM, hrunM, hpM⟩
  · intro k hrun hcur
    obtain ⟨hlast, hcurs, hcomp⟩ := c4_window Q A IL PL maxId b hm hb hQ hA k hrun hcur
    have he2 : (traj1 Q A IL PL true (initState maxId b) k).current_start_id ≤
        min maxId ((traj1 Q A IL PL true (initState maxId b) k).current_start_id + b - 1) :=
      le_min hcur (by omega)
    exact ⟨by omega, hlast, hcurs, hcomp, by omega⟩
  · exact fun j k hjk hj1 hj2 => c4_disjoint Q A IL PL maxId b hm hb hQ hA j k hjk hj1 hj2
  · intro x hx1 hx2
    obtain ⟨hpI, hmxI, hbsI, hcompI, h1I, h2I, hrfI⟩ :=
      c4_inv Q A IL PL maxId b hm hb hQ hA (maxId.toNat + 1)
    have hcM := hrfI hrunM
    obtain ⟨j, hj1, hj2, hj3, hj4⟩ :=
      c4_coverage Q A IL PL maxId b hm hb hQ hA (maxId.toNat + 1) x hx1 (by omega)
    exact ⟨j, hj1, hj3, hj4⟩

/-- Claim C4 witness: the spec scenario — ids 1..250, `batch_size = 100` —
auto-stops with `completed_count = 250` and `running = false` within
251 iterations. -/
theorem claim_C4_witness :
    (traj1 oneItemQ okApi noLookupIL noLookupPL true (initState 250 100) 251).completed_count = 250
    ∧ (traj1 oneItemQ okApi noLookupIL noLookupPL true (initState 250 100) 251).running = false := by
  have h := claim_C4_windowing 250 100 (by norm_num) (by norm_num) oneItemQ okApi noLookupIL noLookupPL
    (fun s e h1 h2 => ⟨⟨s, sc "AK-47"⟩, by simp [oneItemQ], by show sc "AK-47" ≠ []; decide⟩)
    (fun ns => ⟨.dict [], [], rfl, rfl⟩)
  exact ⟨h.2.2.2.2.2.1, h.2.2.2.2.2.2.1⟩

/-- Claim C5: a window whose write fails is rolled back atomically — no
row is persisted, the exception propagates out of `_run_one_range`, the
scheduler state is left exactly as it was, and the next loop iteration
(the loop having swallowed/recorded the exception) starts from the same
`current_start_id`; in the dual variant only `last_error` changes. -/
theorem claim_C5_write_rollback :
    (∀ (Q : Int → Int → List ItemRow) (A : List (List Nat) → Except PyErr PyVal)
       (IL : List Nat → Option Int) (PL : Int → List Nat → Option Int) (st : JobState)
       (v : PyVal) (rows : List PriceRow),
      st.paused = false →
      1 ≤ st.current_start_id → st.current_start_id ≤ st.max_id → 1 ≤ st.batch_size →
      (Q st.current_start_id (min st.max_id (st.current_start_id + st.batch_size - 1))).isEmpty = false →
      (itemNames (Q st.current_start_id (min st.max_id (st.current_start_id + st.batch_size - 1)))).isEmpty = false →
      A (itemNames (Q st.current_start_id (min st.max_id (st.current_start_id + st.batch_size - 1)))) = .ok v →
      normalizeResp IL PL v = .ok rows →
      runOneRange1 Q A IL PL false st = ⟨some .dbError, st, []⟩ ∧
      (st.completed_count < st.max_id → loopStep1 Q A IL PL false st = st))
    ∧ (∀ (Q : Int → Int → List ItemRow) (A1 A2 : List (List Nat) → Except PyErr PyVal)
         (IL : List Nat → Option Int) (PL : Int → List Nat → Option Int) (st : DualState)
         (v : PyVal) (rows : List PriceRow),
      st.paused = false →
      1 ≤ st.current_start_id → st.current_start_id ≤ st.max_id → 1 ≤ st.batch_size →
      (Q st.current_start_id (min st.max_id (st.current_start_id + st.batch_size - 1))).isEmpty = false →
      (itemNames (Q st.current_start_id (min st.max_id (st.current_start_id + st.batch_size - 1)))).isEmpty = false →
      (if st.next_client_id = 1 then A1 else A2)
        (itemNames (Q st.current_start_id (min st.max_id (st.current_start_id + st.batch_size - 1)))) = .ok v →
      normalizeResp IL PL v = .ok rows →
      runOneRange2 Q A1 A2 IL PL false st = ⟨some .dbError, st, []⟩ ∧
      (st.completed_count < st.max_id →
        loopStep2 Q A1 A2 IL PL false st = { st with last_error := some .dbError })) := by
  constructor
  · intro Q A IL PL st v rows hp hs1 hs2 hb hit hnm hapi hnorm
    have hr := run1_reaches_write Q A IL PL false st hs1 hs2 hb hit hnm v rows hapi hnorm
    rw [if_neg (by simp)] at hr
    refine ⟨hr, fun hlt => ?_⟩
    simp only [loopStep1]
    rw [if_neg (by simp [hp]), hr]
    rw [if_neg (by simp; omega)]
  · intro Q A1 A2 IL PL st v rows hp hs1 hs2 hb hit hnm hapi hnorm
    have hr := run2_reaches_write Q A1 A2 IL PL false st hs1 hs2 hb hit hnm v rows hapi hnorm
    rw [if_neg (by simp)] at hr
    refine ⟨hr, fun hlt => ?_⟩
    simp only [loopStep2]
    rw [if_neg (by simp [hp]), hr]
    rw [if_neg (by simp; omega)]

/-- Claim C5 witness: a concrete failing write on both variants leaves the
state untouched and persists nothing. -/
theorem claim_C5_witness :
    runOneRange1 oneItemQ okApi noLookupIL noLookupPL false stV1 = ⟨some .dbError, stV1, []⟩
    ∧ loopStep1 oneItemQ okApi noLookupIL noLookupPL false stV1 = stV1
    ∧ runOneRange2 oneItemQ okApi okApi noLookupIL noLookupPL false stV2 = ⟨some .dbError, stV2, []⟩
    ∧ loopStep2 oneItemQ okApi okApi noLookupIL noLookupPL false stV2
      = { stV2 with last_error := some .dbError } :=
  ⟨(claim_C5_write_rollback.1 oneItemQ okApi noLookupIL noLookupPL stV1 (.dict []) [] rfl
      (by decide) (by decide) (by decide) rfl rfl rfl rfl).1,
   (claim_C5_write_rollback.1 oneItemQ okApi noLookupIL noLookupPL stV1 (.dict []) [] rfl
      (by decide) (by decide) (by decide) rfl rfl rfl rfl).2 (by decide),
   (claim_C5_write_rollback.2 oneItemQ okApi okApi noLookupIL noLookupPL stV2 (.dict []) [] rfl
      (by decide) (by decide) (by decide) rfl rfl (by rfl) rfl).1,
   (claim_C5_write_rollback.2 oneItemQ okApi okApi noLookupIL noLookupPL stV2 (.dict []) [] rfl
      (by decide) (by decide) (by decide) rfl rfl (by rfl) rfl).2 (by decide)⟩

/-- Claim C6: an extracted integer `update_time` below `10^12` is
multiplied by 1000, one at or above `10^12` is stored unchanged —
`1700000000` becomes `1700000000000`, `1700000000000` stays — and a
missing or non-coercible value is stored absent, both at the
`msNormalize` level and through the full per-platform extraction. -/
theorem claim_C6_update_time :
    (∀ n : Int, n < 1000000000000 → msNormalize (some n) = some (n * 1000))
    ∧ (∀ n : Int, 1000000000000 ≤ n → msNormalize (some n) = some n)
    ∧ msNormalize Option.none = Option.none
    ∧ (extractPlatform noLookupPL (sc "m") Option.none
        (.dict [(sc "update_time", .int 1700000000)])).map PriceRow.update_time
      = .ok (some 1700000000000)
    ∧ (extractPlatform noLookupPL (sc "m") Option.none
        (.dict [(sc "update_time", .int 1700000000000)])).map PriceRow.update_time
      = .ok (some 1700000000000)
    ∧ (extractPlatform noLookupPL (sc "m") Option.none
        (.dict [(sc "update_time", .str (sc "abc"))])).map PriceRow.update_time
      = .ok Option.none
    ∧ (extractPlatform noLookupPL (sc "m") Option.none (.dict [])).map PriceRow.update_time
      = .ok Option.none := by
  refine ⟨fun n h => ?_, fun n h => ?_, rfl, rfl, rfl, rfl, rfl⟩
  · simp [msNormalize, h]
  · simp [msNormalize, not_lt.mpr h]

/-- Claim C6 witness: both quantified branches at concrete timestamps. -/
theorem claim_C6_witness :
    msNormalize (some 5) = some (5 * 1000)
    ∧ msNormalize (some 2000000000000) = some 2000000000000 :=
  ⟨claim_C6_update_time.1 5 (by norm_num), claim_C6_update_time.2.1 2000000000000 (by norm_num)⟩

/-- Claim C7: on an idle dual job, `start()` with a missing credential
returns the structured configuration error whose message is a fixed
string distinct per credential (`STEAMDT_API_KEY_1` vs `_2`), the
returned scheduler state is exactly the input state (no field mutated,
no loop launched — the job stays idle), and a missing credential 1 is
reported regardless of credential 2. -/
theorem claim_C7_missing_key (st : DualState) (dbMax : Int) (sid bs isec : Option Int)
    (defB defI : Int) (h : st.running = false) :
    (∀ k2 : Bool, start2 false k2 dbMax sid bs isec defB defI st
      = (st, .configError (sc "未配置 STEAMDT_API_KEY_1")))
    ∧ start2 true false dbMax sid bs isec defB defI st
      = (st, .configError (sc "未配置 STEAMDT_API_KEY_2"))
    ∧ sc "未配置 STEAMDT_API_KEY_1" ≠ sc "未配置 STEAMDT_API_KEY_2" := by
  refine ⟨fun k2 => ?_, ?_, by decide⟩
  · simp [start2, h]
  · simp [start2, h]

/-- Claim C7 witness: the two missing-credential shapes on the freshly
constructed idle state. -/
theorem claim_C7_witness :
    start2 false true 0 Option.none Option.none Option.none 100 30 stIdle2
      = (stIdle2, .configError (sc "未配置 STEAMDT_API_KEY_1"))
    ∧ start2 true false 0 Option.none Option.none Option.none 100 30 stIdle2
      = (stIdle2, .configError (sc "未配置 STEAMDT_API_KEY_2")) :=
  ⟨(claim_C7_missing_key stIdle2 0 Option.none Option.none Option.none 100 30 rfl).1 true,
   (claim_C7_missing_key stIdle2 0 Option.none Option.none Option.none 100 30 rfl).2.1⟩

/-- Claim C8: `canonical_platform_name` is idempotent on every string, and
each alias (`C5`, `HALO`, with case/whitespace variants) canonicalizes
to the same result as its canonical form. -/
theorem claim_C8_canonical_idempotent :
    (∀ s : List Nat,
      canonical_platform_name (canonical_platform_name s) = canonical_platform_name s)
    ∧ canonical_platform_name (sc "C5") = canonical_platform_name (sc "C5GAME")
    ∧ canonical_platform_name (sc "HALO") = canonical_platform_name (sc "HALOSKINS")
    ∧ canonical_platform_name (sc " c5 ") = canonical_platform_name (sc "C5GAME")
    ∧ canonical_platform_name (sc "halo") = canonical_platform_name (sc "HALOSKINS") :=
  ⟨canonical_idem, by decide, by decide, by decide, by decide⟩

/-- Claim C9: `pause()` changes at most the paused flag — cursor,
`completed_count`, `max_id`, `batch_size`, `interval_sec`,
`last_processed_range` and `running` are all preserved — and a paused
loop iteration performs no window at all, so the status snapshot's
cursor and `completed_count` stay fixed until resume/stop. -/
theorem claim_C9_pause_frame :
    (∀ st : JobState,
      (pause1 st).current_start_id = st.current_start_id ∧
      (pause1 st).completed_count = st.completed_count ∧
      (pause1 st).max_id = st.max_id ∧
      (pause1 st).batch_size = st.batch_size ∧
      (pause1 st).interval_sec = st.interval_sec ∧
      (pause1 st).last_processed_range = st.last_processed_range ∧
      (pause1 st).running = st.running)
    ∧ (∀ (Q : Int → Int → List ItemRow) (A : List (List Nat) → Except PyErr PyVal)
        (IL : List Nat → Option Int) (PL : Int → List Nat → Option Int) (w : Bool) (st : JobState),
        st.paused = true → loopStep1 Q A IL PL w st = st) := by
  constructor
  · intro st
    unfold pause1
    split <;> simp
  · intro Q A IL PL w st hp
    simp only [loopStep1]
    rw [if_pos hp]

/-- Claim C9 witness: pausing the running example job freezes it and the
next loop iteration is a no-op. -/
theorem claim_C9_witness :
    loopStep1 oneItemQ okApi noLookupIL noLookupPL true (pause1 stV1) = pause1 stV1
    ∧ (pause1 stV1).current_start_id = stV1.current_start_id :=
  ⟨claim_C9_pause_frame.2 oneItemQ okApi noLookupIL noLookupPL true (pause1 stV1) rfl,
   (claim_C9_pause_frame.1 stV1).1⟩

/-- Claim C10 counterexample: a platform entry whose only price key is
`price` holding 0 stores sell price `0.0` — not absent as the claim's
"a legitimate zero price with no other price key present is stored as
absent" asserts (the `or`-chain hands the last key's value to
`_to_float` even when it is falsy). -/
theorem claim_C10_counterexample :
    (extractPlatform noLookupPL (sc "m") Option.none
      (.dict [(sc "price", .int 0)])).map PriceRow.sell_price = .ok (some 0)
    ∧ (Except.ok (some (0 : Rat)) : Except PyErr (Option Rat)) ≠ .ok Option.none :=
  ⟨rfl, by simp⟩

/-- Claim C10 (amended): the sell-price chain selects the first truthy key
among `sell_price`, `sellPrice`, `sell`, `price`; when none of the first
three is truthy the value of the final key `price` is handed to
`_to_float` whatever it is — so `{"sell_price": 0, "price": 5}` stores
5.0, `{"sell_price": 0}` alone stores absent, but `{"price": 0}` stores
0.0 (a zero under a non-final key degrades to absent, a zero under the
final key is kept). -/
theorem claim_C10_amended :
    (∀ (pd : List (List Nat × PyVal)) (n : Int),
      pyTruthy (dictGet pd (sc "sell_price")) = false →
      pyTruthy (dictGet pd (sc "sellPrice")) = false →
      pyTruthy (dictGet pd (sc "sell")) = false →
      dictGet pd (sc "price") = .int n →
      pyFloat (sellChain pd) = some (n : Rat))
    ∧ (∀ pd : List (List Nat × PyVal),
      pyTruthy (dictGet pd (sc "sell_price")) = true →
      pyFloat (sellChain pd) = pyFloat (dictGet pd (sc "sell_price")))
    ∧ (extractPlatform noLookupPL (sc "m") Option.none
        (.dict [(sc "sell_price", .int 0), (sc "price", .int 5)])).map PriceRow.sell_price
      = .ok (some 5)
    ∧ (extractPlatform noLookupPL (sc "m") Option.none
        (.dict [(sc "sell_price", .int 0)])).map PriceRow.sell_price = .ok Option.none
    ∧ (extractPlatform noLookupPL (sc "m") Option.none
        (.dict [(sc "price", .int 0)])).map PriceRow.sell_price = .ok (some 0) := by
  refine ⟨fun pd n h1 h2 h3 h4 => ?_, fun pd h1 => ?_, rfl, rfl, rfl⟩
  · simp only [sellChain, pyOr, h1, h2, h3, h4]
    simp [pyFloat]
  · simp only [sellChain, pyOr, h1]
    simp

/-- Claim C10 witness: the quantified parts of the amended claim at
concrete platform dicts. -/
theorem claim_C10_witness :
    pyFloat (sellChain [(sc "price", PyVal.int 0)]) = some 0
    ∧ pyFloat (sellChain [(sc "sell_price", PyVal.int 7)])
      = pyFloat (dictGet [(sc "sell_price", PyVal.int 7)] (sc "sell_price")) :=
  ⟨claim_C10_amended.1 _ 0 rfl rfl rfl rfl,
   claim_C10_amended.2.1 _ rfl⟩

end SteamDT
